import Mathlib

/-!
Verification of the pypdl batch file downloader.

Shallow embedding of the repository sources:
* `pypdl/downloader.py` — the asynchronous engine (`AsyncFileDownloader`):
  retry loop with exponential backoff, temp-file writes with a final rename,
  HTTP `Range` resume, producer/consumer batching and rate limiting;
* `pypdl/core.py` — the legacy downloader (`Core` namespace below);
* the semantics of the external collaborators exactly as they are used by the
  engine: `aiolimiter.AsyncLimiter` (leaky-bucket rate limiter, entered once
  per download and never released on exit) and `aiohttp.TCPConnector`
  (connection-pool semaphore with `limit=max_concurrent`).

Machine bytes are `Nat`s (< 256), byte strings are `List Nat`, time is in
whole seconds, and 32-bit arithmetic in the MD5 embedding is `Nat` arithmetic
reduced `% 2^32` at every step that can overflow.
-/

namespace Pypdl

/-- Byte strings are lists of naturals (each conceptually < 256). -/
abbrev Bytes := List Nat

/-- Split a list into consecutive chunks of `m + 1` elements (the last one
possibly shorter), structured on a fuel bound on the number of chunks so
that it computes by kernel reduction.  Used both for the producer's URL
batches and for the 64-byte MD5 blocks. -/
def chunksOfFuel (m : Nat) : Nat → List α → List (List α)
  | 0, _ => []
  | _, [] => []
  | fuel + 1, u :: us => (u :: us.take m) :: chunksOfFuel m fuel (us.drop m)

/-- Split a list into consecutive chunks of `m + 1` elements (the last one
possibly shorter). -/
def chunksOf (m : Nat) (l : List α) : List (List α) := chunksOfFuel m l.length l

/-- The slice of the filesystem one job touches: the content of the adjacent
temporary file `<filepath>.temp` and of the final `<filepath>`; `none` means
the file does not exist.  From `downloader.py` lines 59-60. -/
structure Fs where
  temp : Option Bytes
  dest : Option Bytes
deriving DecidableEq, Repr

/-- The observable part of the HTTP request built by `download_file`
(`downloader.py` lines 72-76): the headers dict holds at most a `Range`
header, `bytes=<start>-`, recorded here as the start offset. -/
structure Request where
  rangeStart : Option Nat
deriving DecidableEq, Repr

/-- What the network does on one attempt, as seen through `session.get`:
either a response with a status and a list of body chunks (with
`interrupt = some msg` when the body stream raises an
`aiohttp.ClientError` after those chunks were delivered), or a request-level
failure (`aiohttp.ClientError` / `asyncio.TimeoutError`). -/
inductive Outcome where
  | resp (status : Nat) (chunks : List Bytes) (interrupt : Option String)
  | err (msg : String)
deriving DecidableEq, Repr

/-- The per-job result dict built by `download_file`
(`downloader.py` lines 66, 80, 112, 121); the constant `url` field is
omitted. -/
inductive DlResult where
  | success (filename : String) (bytesDownloaded : Nat)
  | error (message : String)
deriving DecidableEq, Repr

/-- How one attempt body ends: a `return` of a result dict, an exception
caught by the retry loop (`aiohttp.ClientError` / `asyncio.TimeoutError`,
line 114), or an exception the loop does not catch (the `os.rename` on a
416 response when no temp file exists raises `FileNotFoundError`). -/
inductive StepRes where
  | done (r : DlResult)
  | raised (msg : String)
  | crashed
deriving DecidableEq, Repr

/-- Intermediate filesystem states produced by the chunk-write loop of
`download_file` (lines 96-100): each chunk is appended to the temp file,
the destination is not touched. -/
def chunkWrites (d : Option Bytes) : Bytes → List Bytes → List Fs
  | _, [] => []
  | base, c :: cs => { temp := some (base ++ c), dest := d } :: chunkWrites d (base ++ c) cs

/-- One iteration of the retry loop of `download_file`
(`downloader.py` lines 69-113), given the filesystem state at its start and
the network outcome of this attempt.  Returns the issued request, the list
of filesystem states after each mutation (open, each chunk write, rename),
how the iteration ended, and the final filesystem state. -/
structure AttemptRun where
  request : Request
  states : List Fs
  result : StepRes
  final : Fs
deriving DecidableEq, Repr

/-- `download_file`, one attempt (lines 69-113): build the `Range` header from
the temp file size when the temp file exists (lines 72-74); on 416 rename the
temp file and report success with 0 bytes (lines 77-80); on a status other
than 200/206 raise `ClientResponseError` (lines 82-89); otherwise open the
temp file in append mode on 206 and truncating write mode on 200 (line 92),
write every delivered chunk (lines 94-100), and on a clean end of stream
rename the temp file onto the destination and report success (lines
102-112). -/
def attempt (filename : String) (fs : Fs) (o : Outcome) : AttemptRun :=
  let req : Request := { rangeStart := fs.temp.map List.length }
  match o with
  | .err msg => { request := req, states := [], result := .raised msg, final := fs }
  | .resp status chunks interrupt =>
    if status = 416 then
      match fs.temp with
      | none => { request := req, states := [], result := .crashed, final := fs }
      | some t =>
        let renamed : Fs := { temp := none, dest := some t }
        { request := req, states := [renamed],
          result := .done (.success filename 0), final := renamed }
    else if status = 200 ∨ status = 206 then
      let base : Bytes := if status = 206 then fs.temp.getD [] else []
      let opened : Fs := { temp := some base, dest := fs.dest }
      let writes := chunkWrites fs.dest base chunks
      match interrupt with
      | some msg =>
        { request := req, states := opened :: writes, result := .raised msg,
          final := { temp := some (base ++ chunks.flatten), dest := fs.dest } }
      | none =>
        let renamed : Fs := { temp := none, dest := some (base ++ chunks.flatten) }
        { request := req, states := opened :: writes ++ [renamed],
          result := .done (.success filename chunks.flatten.length), final := renamed }
    else
      { request := req, states := [],
        result := .raised ("HTTP " ++ toString status), final := fs }

/-- How the whole `download_file` call ends: `ret r` models `return r`;
`retNone` models falling off the `for` loop (Python returns `None`, possible
only when `retry_attempts = 0`); `exn` models an uncaught exception. -/
inductive FnResult where
  | ret (r : DlResult)
  | retNone
  | exn
deriving DecidableEq, Repr

/-- Everything observable about one `download_file` call: its outcome, the
final filesystem state, the requests issued (one per attempt), the backoff
sleeps performed (line 122), and the filesystem states traversed. -/
structure JobRun where
  result : FnResult
  final : Fs
  requests : List Request
  sleeps : List Nat
  states : List Fs
deriving DecidableEq, Repr

/-- The retry loop of `download_file` (lines 68-122):
`for attempt in range(retry_attempts)`, at attempt index `i` with `r`
iterations remaining (`r = retry_attempts - i`; the recursion is structural
on `r` so that the function computes by kernel reduction).  A caught failure
on the last attempt (`attempt == self.retry_attempts - 1`, i.e. `r = 1`,
line 116) returns the error dict; a caught failure earlier sleeps
`2 ** attempt` seconds (line 122) and retries. -/
def retryLoop (filename : String) (out : Nat → Outcome) : Nat → Nat → Fs → JobRun
  | _, 0, fs =>
    { result := .retNone, final := fs, requests := [], sleeps := [], states := [] }
  | i, 1, fs =>
    let a := attempt filename fs (out i)
    match a.result with
    | .done r =>
      { result := .ret r, final := a.final, requests := [a.request],
        sleeps := [], states := a.states }
    | .crashed =>
      { result := .exn, final := a.final, requests := [a.request],
        sleeps := [], states := a.states }
    | .raised msg =>
      { result := .ret (.error msg), final := a.final,
        requests := [a.request], sleeps := [], states := a.states }
  | i, r + 2, fs =>
    let a := attempt filename fs (out i)
    match a.result with
    | .done r =>
      { result := .ret r, final := a.final, requests := [a.request],
        sleeps := [], states := a.states }
    | .crashed =>
      { result := .exn, final := a.final, requests := [a.request],
        sleeps := [], states := a.states }
    | .raised _ =>
      let rest := retryLoop filename out (i + 1) (r + 1) a.final
      { result := rest.result, final := rest.final,
        requests := a.request :: rest.requests,
        sleeps := 2 ^ i :: rest.sleeps,
        states := a.states ++ rest.states }

/-- `download_file` with the filename already computed (the Python code
computes `filename = self.generate_filename(url)` once at line 58; the
`url`-level wrapper appears after `generate_filename` below).  Lines 62-66:
when the destination file already exists, return success with
`bytes_downloaded = 0` before issuing any request; otherwise run the retry
loop. -/
def downloadFileNamed (filename : String) (retryAttempts : Nat) (fs : Fs)
    (out : Nat → Outcome) : JobRun :=
  match fs.dest with
  | some _ =>
    { result := .ret (.success filename 0), final := fs,
      requests := [], sleeps := [], states := [] }
  | none => retryLoop filename out 0 retryAttempts fs

/-- The last element of a list, or `d` when the list is empty. -/
def lastOr : α → List α → α
  | d, [] => d
  | _, a :: l => lastOr a l

/-- One filesystem transition of the async engine either leaves the
destination file untouched (a temp-file write), or publishes the complete
temp file by renaming it onto the destination: the new destination content
is the whole temp content and the temp path is cleared. -/
def destPublish (s s2 : Fs) : Prop :=
  s2.dest = s.dest ∨ (s.temp ≠ none ∧ s2.dest = s.temp ∧ s2.temp = none)

instance (s s2 : Fs) : Decidable (destPublish s s2) := by
  unfold destPublish
  infer_instance

/-! ## The legacy downloader, `pypdl/core.py` -/

namespace Core

/-- The per-job result dict built by `core.py` `download_file`
(lines 47, 58, 61, 63): it never carries a byte count. -/
inductive CoreResult where
  | success (filename : String)
  | error (message : String)
deriving DecidableEq, Repr

/-- Observable pieces of one `core.py` `download_file` call. -/
structure CoreRun where
  states : List Fs
  result : CoreResult
  final : Fs
deriving DecidableEq, Repr

/-- Intermediate filesystem states of the chunk-write loop of `core.py`
(lines 53-55): each chunk is written directly to the destination path. -/
def destWrites (tp : Option Bytes) : Bytes → List Bytes → List Fs
  | _, [] => []
  | base, c :: cs => { temp := tp, dest := some (base ++ c) } :: destWrites tp (base ++ c) cs

/-- `core.py` `download_file` (lines 37-63): if the destination does not
exist, issue a plain GET (no `Range` header), return an error dict on a
status other than 200, otherwise open the destination itself in `'wb'` mode
and write every chunk straight to it; any exception is caught and turned
into an error dict (line 59-61), leaving whatever was already written at the
destination path.  If the destination exists, return success immediately. -/
def downloadFile (filename : String) (fs : Fs) (o : Outcome) : CoreRun :=
  match fs.dest with
  | some _ => { states := [], result := .success filename, final := fs }
  | none =>
    match o with
    | .err msg => { states := [], result := .error msg, final := fs }
    | .resp status chunks interrupt =>
      if status = 200 then
        let opened : Fs := { temp := fs.temp, dest := some [] }
        let writes := destWrites fs.temp [] chunks
        let final : Fs := { temp := fs.temp, dest := some chunks.flatten }
        match interrupt with
        | some msg => { states := opened :: writes, result := .error msg, final := final }
        | none => { states := opened :: writes, result := .success filename, final := final }
      else
        { states := [], result := .error ("HTTP " ++ toString status), final := fs }

end Core

/-! ## `aiolimiter.AsyncLimiter` as used at `downloader.py` lines 30 and 70

`AsyncLimiter(max_rate, time_period=60)` is a leaky bucket: a float `_level`
leaks at `max_rate / time_period` units per second, `acquire(1)` waits until
`_level + 1 <= max_rate` and then adds 1.  The engine constructs it as
`AsyncLimiter(self.max_concurrent)` (line 30), so `time_period` is the
default 60 seconds, and enters it with `async with self.rate_limiter:`
(line 70) whose `__aexit__` does nothing — nothing is ever released when a
download finishes.  We scale the level by 60 so that all values are natural
numbers when `max_rate` is a natural number and timestamps are whole
seconds: a stored level `L` means `_level = L / 60`. -/

namespace RateLimiterModel

/-- Leaky-bucket state: `level` is `_level` scaled by 60, `lastCheck` is
`_last_check` in whole seconds. -/
structure LState where
  level : Nat
  lastCheck : Nat
deriving DecidableEq, Repr

/-- `AsyncLimiter._leak`: if the level is nonzero, subtract
`elapsed * max_rate / time_period` (scaled: `elapsed * maxRate`), floored at
zero, and update the last-check time. -/
def leak (maxRate t : Nat) (s : LState) : LState :=
  if s.level = 0 then { s with lastCheck := t }
  else { level := s.level - (t - s.lastCheck) * maxRate, lastCheck := t }

/-- `AsyncLimiter.acquire(1)` when it succeeds without waiting at time `t`:
leak, check `_level + 1 <= max_rate` (scaled by 60), then add 1 (scaled: add
60).  Returns `none` when the acquisition would have to wait. -/
def acquireAt (maxRate t : Nat) (s : LState) : Option LState :=
  let s2 := leak maxRate t s
  if s2.level + 60 ≤ 60 * maxRate then some { s2 with level := s2.level + 60 }
  else none

/-- Whether the limiter lets every acquisition in the list (given by its
timestamp, in nondecreasing order) proceed immediately at its stated time. -/
def admits (maxRate : Nat) : LState → List Nat → Bool
  | _, [] => true
  | s, t :: ts =>
    match acquireAt maxRate t s with
    | some s2 => admits maxRate s2 ts
    | none => false

/-- Number of transfers in flight at time `t`, given each transfer's
(start time, duration): those with `start ≤ t < start + duration`. -/
def outstandingAt (jobs : List (Nat × Nat)) (t : Nat) : Nat :=
  (jobs.filter (fun j => decide (j.1 ≤ t ∧ t < j.1 + j.2))).length

end RateLimiterModel

/-! ## `aiohttp.TCPConnector(limit=max_concurrent)` at `downloader.py` line 39

The connector is a counting semaphore over connections: a request acquires a
connection before its body can exist and holds it while the body is
unconsumed; when the pool is exhausted, acquisition blocks (modelled as a
no-op: the event simply cannot raise the held count). -/

namespace ConnectorModel

/-- A connection-pool event: a request acquires a connection, or finishes
and releases it. -/
inductive ConnEvent where
  | acq
  | rel
deriving DecidableEq, Repr

/-- Semaphore transition: an acquire succeeds only below the limit (a caller
at the limit blocks, so the held count cannot rise); a release frees one. -/
def connStep (limit held : Nat) : ConnEvent → Nat
  | .acq => if held < limit then held + 1 else held
  | .rel => held - 1

/-- The sequence of held-connection counts along an event trace. -/
def connStates (limit : Nat) : Nat → List ConnEvent → List Nat
  | held, [] => [held]
  | held, e :: es => held :: connStates limit (connStep limit held e) es

end ConnectorModel

/-! ## `generate_filename`, `downloader.py` lines 49-53

`generate_filename` is
`f"{hashlib.md5(url.encode()).hexdigest()}_{unquote(os.path.basename(urlparse(url).path)) or 'unnamed_file'}"`.
Below: UTF-8 encoding (`str.encode()`), MD5 (RFC 1321, as `hashlib.md5`),
lower-case hex digests, the `path` attribute of `urllib.parse.urlparse`,
POSIX `os.path.basename`, and `urllib.parse.unquote`. -/

/-- UTF-8 encoding of one character (`str.encode()`). -/
def encodeChar (c : Char) : Bytes :=
  let n := c.toNat
  if n < 128 then [n]
  else if n < 2048 then [192 + n / 64, 128 + n % 64]
  else if n < 65536 then [224 + n / 4096, 128 + n / 64 % 64, 128 + n % 64]
  else [240 + n / 262144, 128 + n / 4096 % 64, 128 + n / 64 % 64, 128 + n % 64]

/-- `s.encode()`: the UTF-8 bytes of a string. -/
def utf8Bytes (s : String) : Bytes := s.toList.flatMap encodeChar

/-- The 64 MD5 round constants `K[i] = floor(abs(sin(i+1)) * 2^32)`
(RFC 1321). -/
def md5K : List Nat :=
  [0xd76aa478, 0xe8c7b756, 0x242070db, 0xc1bdceee,
   0xf57c0faf, 0x4787c62a, 0xa8304613, 0xfd469501,
   0x698098d8, 0x8b44f7af, 0xffff5bb1, 0x895cd7be,
   0x6b901122, 0xfd987193, 0xa679438e, 0x49b40821,
   0xf61e2562, 0xc040b340, 0x265e5a51, 0xe9b6c7aa,
   0xd62f105d, 0x02441453, 0xd8a1e681, 0xe7d3fbc8,
   0x21e1cde6, 0xc33707d6, 0xf4d50d87, 0x455a14ed,
   0xa9e3e905, 0xfcefa3f8, 0x676f02d9, 0x8d2a4c8a,
   0xfffa3942, 0x8771f681, 0x6d9d6122, 0xfde5380c,
   0xa4beea44, 0x4bdecfa9, 0xf6bb4b60, 0xbebfbc70,
   0x289b7ec6, 0xeaa127fa, 0xd4ef3085, 0x04881d05,
   0xd9d4d039, 0xe6db99e5, 0x1fa27cf8, 0xc4ac5665,
   0xf4292244, 0x432aff97, 0xab9423a7, 0xfc93a039,
   0x655b59c3, 0x8f0ccc92, 0xffeff47d, 0x85845dd1,
   0x6fa87e4f, 0xfe2ce6e0, 0xa3014314, 0x4e0811a1,
   0xf7537e82, 0xbd3af235, 0x2ad7d2bb, 0xeb86d391]

/-- The 64 MD5 per-round left-rotation amounts. -/
def md5S : List Nat :=
  [7, 12, 17, 22, 7, 12, 17, 22, 7, 12, 17, 22, 7, 12, 17, 22,
   5, 9, 14, 20, 5, 9, 14, 20, 5, 9, 14, 20, 5, 9, 14, 20,
   4, 11, 16, 23, 4, 11, 16, 23, 4, 11, 16, 23, 4, 11, 16, 23,
   6, 10, 15, 21, 6, 10, 15, 21, 6, 10, 15, 21, 6, 10, 15, 21]

/-- 32-bit bitwise complement (inputs are kept below `2^32`). -/
def cpl32 (x : Nat) : Nat := 4294967295 - x

/-- 32-bit left rotation (inputs are kept below `2^32`). -/
def rotl32 (x n : Nat) : Nat := (x * 2 ^ n) % 4294967296 + x / 2 ^ (32 - n)

/-- The MD5 round functions F, G, H, I, selected by round index. -/
def md5F (i b c d : Nat) : Nat :=
  if i < 16 then (b &&& c) ||| (cpl32 b &&& d)
  else if i < 32 then (d &&& b) ||| (cpl32 d &&& c)
  else if i < 48 then b ^^^ c ^^^ d
  else c ^^^ (b ||| cpl32 d)

/-- The MD5 message-word index used in round `i`. -/
def md5G (i : Nat) : Nat :=
  if i < 16 then i
  else if i < 32 then (5 * i + 1) % 16
  else if i < 48 then (3 * i + 5) % 16
  else (7 * i) % 16

/-- The little-endian 32-bit word at byte offset `k` of a block. -/
def wordLE (block : Bytes) (k : Nat) : Nat :=
  block.getD k 0 + 256 * block.getD (k + 1) 0 + 65536 * block.getD (k + 2) 0 +
    16777216 * block.getD (k + 3) 0

/-- One MD5 round applied to the running state `(a, b, c, d)`. -/
def md5Step (M : Nat → Nat) (st : Nat × Nat × Nat × Nat) (i : Nat) :
    Nat × Nat × Nat × Nat :=
  let f := (md5F i st.2.1 st.2.2.1 st.2.2.2 + st.1 + md5K.getD i 0 + M (md5G i)) % 4294967296
  (st.2.2.2, (st.2.1 + rotl32 f (md5S.getD i 0)) % 4294967296, st.2.1, st.2.2.1)

/-- Process one 64-byte block: 64 rounds, then add the block result to the
incoming state, word-wise mod `2^32`. -/
def md5Block (st : Nat × Nat × Nat × Nat) (block : Bytes) : Nat × Nat × Nat × Nat :=
  let r := (List.range 64).foldl (md5Step (fun j => wordLE block (4 * j))) st
  ((st.1 + r.1) % 4294967296, (st.2.1 + r.2.1) % 4294967296,
   (st.2.2.1 + r.2.2.1) % 4294967296, (st.2.2.2 + r.2.2.2) % 4294967296)

/-- The `k` little-endian bytes of `n`. -/
def natLE : Nat → Nat → Bytes
  | 0, _ => []
  | k + 1, n => n % 256 :: natLE k (n / 256)

/-- MD5 padding: a `0x80` byte, zero bytes up to length 56 mod 64, then the
bit length as a 64-bit little-endian number. -/
def md5Pad (msg : Bytes) : Bytes :=
  msg ++ 128 :: List.replicate ((120 - (msg.length + 1) % 64) % 64) 0 ++
    natLE 8 (msg.length * 8)

/-- Split into 64-byte blocks (the padded length is a multiple of 64). -/
def blocks64 (l : Bytes) : List Bytes := chunksOf 63 l

/-- The 16-byte MD5 digest of a byte string (RFC 1321;
initial state A=0x67452301, B=0xefcdab89, C=0x98badcfe, D=0x10325476,
serialized little-endian). -/
def md5Digest (msg : Bytes) : Bytes :=
  let st := (blocks64 (md5Pad msg)).foldl md5Block
    (0x67452301, 0xefcdab89, 0x98badcfe, 0x10325476)
  natLE 4 st.1 ++ natLE 4 st.2.1 ++ natLE 4 st.2.2.1 ++ natLE 4 st.2.2.2

/-- Lower-case hex digit. -/
def hexChar (n : Nat) : Char :=
  if n < 10 then Char.ofNat (48 + n) else Char.ofNat (87 + n)

/-- Two lower-case hex characters of one byte (as in `hexdigest`). -/
def byteHex (b : Nat) : List Char := [hexChar (b / 16 % 16), hexChar (b % 16)]

/-- `hashlib.md5(s.encode()).hexdigest()`. -/
def md5hex (s : String) : String :=
  String.mk ((md5Digest (utf8Bytes s)).flatMap byteHex)

/-- Characters allowed in a URL scheme after the first (CPython
`scheme_chars`). -/
def isSchemeChar (c : Char) : Bool := c.isAlphanum || c == '+' || c == '-' || c == '.'

/-- Strip a leading `scheme:` when present, returning the lower-cased scheme
and the rest; a scheme must start with an ASCII letter and consist of scheme
characters (CPython `urlsplit`). -/
def splitScheme (s : List Char) : List Char × List Char :=
  match s.findIdx? (fun c => c == ':') with
  | some i =>
    if 0 < i ∧ (s.headD ' ').isAlpha ∧ (s.take i).all isSchemeChar then
      ((s.take i).map Char.toLower, s.drop (i + 1))
    else ([], s)
  | none => ([], s)

/-- Strip a leading `//netloc` when present (CPython `_splitnetloc`): the
netloc extends to the first `/`, `?` or `#`, which is kept. -/
def dropNetloc : List Char → List Char
  | '/' :: '/' :: rest => rest.dropWhile (fun c => !(c == '/' || c == '?' || c == '#'))
  | s => s

/-- Index of the first character satisfying `pred` at or after `start`. -/
def findIdxFrom (pred : Char → Bool) (start : Nat) (l : List Char) : Option Nat :=
  ((l.drop start).findIdx? pred).map (· + start)

/-- CPython `_splitparams` applied to a path: drop a `;params` suffix of the
last path segment (the first `;` at or after the last `/`). -/
def splitParams (p : List Char) : List Char :=
  if p.contains '/' then
    match p.reverse.findIdx? (fun c => c == '/') with
    | some j =>
      match findIdxFrom (fun c => c == ';') (p.length - 1 - j) p with
      | some i => p.take i
      | none => p
    | none => p
  else
    match p.findIdx? (fun c => c == ';') with
    | some i => p.take i
    | none => p

/-- Schemes for which `urlparse` separates `;params` (CPython
`uses_params`). -/
def usesParamsSchemes : List String :=
  ["", "ftp", "hdl", "prospero", "http", "imap", "https", "shttp", "rtsp",
   "rtspu", "sip", "sips", "mms", "sftp", "tel"]

/-- The `path` attribute of `urlparse(url)`: strip the scheme, the
`//netloc`, the `?query` and the `#fragment`; for schemes that use
parameters, also strip `;params` from the last segment. -/
def urlparsePath (url : String) : List Char :=
  let sr := splitScheme url.toList
  let path := ((dropNetloc sr.2).takeWhile (fun c => !(c == '#'))).takeWhile
    (fun c => !(c == '?'))
  if usesParamsSchemes.contains (String.mk sr.1) ∧ path.contains ';' then
    splitParams path
  else path

/-- Value of a hex digit character, when it is one. -/
def hexVal (c : Char) : Option Nat :=
  if '0' ≤ c ∧ c ≤ '9' then some (c.toNat - 48)
  else if 'a' ≤ c ∧ c ≤ 'f' then some (c.toNat - 87)
  else if 'A' ≤ c ∧ c ≤ 'F' then some (c.toNat - 55)
  else none

/-- `urllib.parse.unquote` restricted to single-byte escapes: each valid
`%XX` pair becomes the character with code `XX`; invalid escapes are kept
verbatim.  (Python groups consecutive escaped bytes and decodes them as
UTF-8; the byte values are the same, only their grouping into characters
differs, and no claim depends on that grouping.) -/
def unquote : List Char → List Char
  | '%' :: h1 :: h2 :: rest =>
    match hexVal h1, hexVal h2 with
    | some a, some b => Char.ofNat (16 * a + b) :: unquote rest
    | _, _ => '%' :: unquote (h1 :: h2 :: rest)
  | c :: rest => c :: unquote rest
  | [] => []

/-- `os.path.basename` for POSIX paths: everything after the last `/`. -/
def pathBasename (p : List Char) : List Char :=
  (p.reverse.takeWhile (fun c => !(c == '/'))).reverse

/-- `generate_filename` (`downloader.py` lines 49-53). -/
def generate_filename (url : String) : String :=
  let originalFilename := unquote (pathBasename (urlparsePath url))
  md5hex url ++ "_" ++
    String.mk (if originalFilename.isEmpty then "unnamed_file".toList else originalFilename)

/-- `download_file` for a URL: line 58 computes
`filename = self.generate_filename(url)` before the existence check and the
retry loop. -/
def downloadFile (url : String) (retryAttempts : Nat) (fs : Fs)
    (out : Nat → Outcome) : JobRun :=
  downloadFileNamed (generate_filename url) retryAttempts fs out

/-! ## The batch scheduler, `downloader.py` lines 124-157 -/

/-- `producer` (lines 124-128): the batches put on the queue, in order — the
loop pops `min(batch_size, len(urls))` URLs from the front of the deque per
batch until the deque is empty.  A `batch_size` of zero would loop forever
in Python popping empty batches; the claims only concern positive batch
sizes (the default is 100). -/
def producerBatches (batchSize : Nat) (urls : List String) : List (List String) :=
  match batchSize with
  | 0 => []
  | m + 1 => chunksOf m urls

/-- A queue item of `download_all`'s `asyncio.Queue`: a batch of URLs, or
the single `None` end-of-input sentinel (line 128). -/
abbrev QItem := Option (List String)

/-- The sequence of items `producer` (lines 124-128) puts on the queue:
every batch, in order, then exactly one `None` sentinel. -/
def producerItems (batchSize : Nat) (urls : List String) : List QItem :=
  (producerBatches batchSize urls).map some ++ [none]

/-- What one consumer task computes: the per-URL result dicts of the
batches it processed, and whether it ever left its `while True` loop. -/
structure ConsumerRun where
  results : List FnResult
  finished : Bool
deriving DecidableEq, Repr

/-- One consumer task (lines 130-140), applied to the sequence of queue
items delivered to it, in order: it takes items until the `None` sentinel
(`break`, line 134 — only then is the task finished); a consumer whose
delivered sequence ends without a sentinel stays blocked in `queue.get()`
forever (`finished = false`).  For each batch it runs `download_file` on
every URL and inspects each result dict for the progress bar (lines
135-139); those dicts are `results`.  (That inspection,
`result['status']`, would itself raise on a `None` result, which only
`retry_attempts = 0` can produce; no claim exercises that corner.) -/
def consumerRun (retryAttempts : Nat) (env : String → Fs × (Nat → Outcome)) :
    List QItem → ConsumerRun
  | [] => { results := [], finished := false }
  | none :: _ => { results := [], finished := true }
  | some batch :: rest =>
    let rs := batch.map (fun u =>
      (downloadFile u retryAttempts (env u).1 (env u).2).result)
    let c := consumerRun retryAttempts env rest
    { results := rs ++ c.results, finished := c.finished }

/-- The observable outcome of `download_all` (lines 142-157): the internal
per-job result dicts computed by the consumers, and what the caller
receives — `some []` when the `asyncio.gather` at line 153 completes and
line 157's `return []` is reached, `none` when the gather never completes
and `download_all` never returns. -/
structure SchedulerRun where
  internalResults : List FnResult
  returned : Option (List FnResult)
deriving DecidableEq, Repr

/-- `download_all` (lines 142-157) over a queue delivery: `recvs` lists,
for each of the `max_concurrent` consumer tasks created at line 151, the
queue items delivered to it, in order.  A legal delivery hands each
produced item to exactly one consumer (`recvs.flatten` is a permutation of
`producerItems`), and FIFO order makes the sentinel — enqueued last — the
last item its receiver gets; these facts are hypotheses of the theorems,
not baked in.  Under a legal delivery the producer's puts all complete, so
the gather at line 153 completes exactly when every consumer task has
broken out of its loop; only then does the caller receive line 157's
`[]`. -/
def downloadAllRun (retryAttempts : Nat) (env : String → Fs × (Nat → Outcome))
    (recvs : List (List QItem)) : SchedulerRun :=
  { internalResults :=
      (recvs.map (fun r => (consumerRun retryAttempts env r).results)).flatten,
    returned :=
      if (recvs.map (fun r => (consumerRun retryAttempts env r).finished)).all
          (fun b => b) then some [] else none }

/-! ## Helper lemmas -/

theorem attempt_err_eq (f m : String) (fs : Fs) :
    attempt f fs (.err m) =
      { request := { rangeStart := fs.temp.map List.length }, states := [],
        result := .raised m, final := fs } := rfl

theorem attempt_badStatus_eq (f : String) (fs : Fs) (status : Nat)
    (chunks : List Bytes) (itr : Option String) (h416 : status ≠ 416)
    (h200 : status ≠ 200) (h206 : status ≠ 206) :
    attempt f fs (.resp status chunks itr) =
      { request := { rangeStart := fs.temp.map List.length }, states := [],
        result := .raised ("HTTP " ++ toString status), final := fs } := by
  simp [attempt, h416, h200, h206]

/-- When every attempt raises a caught exception and leaves the filesystem
unchanged, the retry loop from attempt index `i` with `k + 1` iterations
left issues `k + 1` requests, sleeps `2 ^ i, 2 ^ (i+1), …, 2 ^ (i+k-1)`
between them, and returns the error dict of the last failure. -/
theorem retryLoop_raised (f m : String) (fs : Fs) (out : Nat → Outcome) (rq : Request)
    (hstep : ∀ j, attempt f fs (out j) =
      { request := rq, states := [], result := .raised m, final := fs }) :
    ∀ (k i : Nat),
      retryLoop f out i (k + 1) fs =
        { result := .ret (.error m), final := fs,
          requests := List.replicate (k + 1) rq,
          sleeps := (List.range k).map (fun j => 2 ^ (i + j)), states := [] } := by
  intro k
  induction k with
  | zero =>
    intro i
    simp [retryLoop, hstep i]
  | succ k ih =>
    intro i
    have hfun : ((fun j => 2 ^ (i + j)) ∘ Nat.succ) = (fun j => 2 ^ (i + 1 + j)) := by
      funext j
      simp only [Function.comp]
      congr 1
      omega
    simp [retryLoop, hstep i, ih (i + 1), List.replicate_succ,
      List.range_succ_eq_map, List.map_map, hfun]

/-! ## Claims C4 and C5: retry behaviour -/

/-- C4, counterexample: with `retry_attempts = 3` and a job whose every
attempt fails with a caught transient error (`asyncio.TimeoutError`), the
engine makes 3 attempts in total, i.e. performs only 2 backoff sleeps /
retries — not the 3 retries the claim states. -/
theorem C4_counterexample :
    (downloadFileNamed "f" 3 { temp := none, dest := none }
      (fun _ => .err "timeout")).requests.length = 3 ∧
    (downloadFileNamed "f" 3 { temp := none, dest := none }
      (fun _ => .err "timeout")).sleeps = [1, 2] ∧
    ¬ ((downloadFileNamed "f" 3 { temp := none, dest := none }
      (fun _ => .err "timeout")).sleeps.length = 3) := by
  decide

/-- C4, amended: a job whose failures are all transient is attempted
`retry_attempts` times in total — that is, retried `retry_attempts - 1`
times — with backoff delays `2 ^ attempt` (base 2) that strictly increase
between successive attempts, and the terminal error dict is produced only
on the final attempt. -/
theorem C4_theorem (f msg : String) (tp : Option Bytes) (k : Nat) :
    (downloadFileNamed f (k + 1) { temp := tp, dest := none }
      (fun _ => .err msg)).result = .ret (.error msg) ∧
    (downloadFileNamed f (k + 1) { temp := tp, dest := none }
      (fun _ => .err msg)).requests.length = k + 1 ∧
    (downloadFileNamed f (k + 1) { temp := tp, dest := none }
      (fun _ => .err msg)).sleeps = (List.range k).map (fun j => 2 ^ j) ∧
    List.Pairwise (fun a b => a < b)
      (downloadFileNamed f (k + 1) { temp := tp, dest := none }
        (fun _ => .err msg)).sleeps := by
  have h := retryLoop_raised f msg { temp := tp, dest := none }
    (fun _ => .err msg) { rangeStart := tp.map List.length }
    (fun _ => attempt_err_eq f msg { temp := tp, dest := none }) k 0
  have hd : downloadFileNamed f (k + 1) { temp := tp, dest := none }
      (fun _ => .err msg) =
      retryLoop f (fun _ => .err msg) 0 (k + 1) { temp := tp, dest := none } := rfl
  rw [hd, h]
  refine ⟨rfl, by simp, by simp, ?_⟩
  have hp : List.Pairwise (fun a b : Nat => a < b)
      ((List.range k).map (fun j => 2 ^ j)) := by
    refine List.pairwise_map.2 ?_
    exact (List.pairwise_lt_range k).imp
      (fun hlt => pow_lt_pow_right₀ (by norm_num) hlt)
  simpa using hp

/-- C5, counterexample: a job whose server answers 404 (a permanent 4xx) on
every attempt is nevertheless retried — with `retry_attempts = 3` the engine
issues 3 requests and sleeps twice before the terminal error, instead of
surfacing the error immediately with zero retries. -/
theorem C5_counterexample :
    (downloadFileNamed "f" 3 { temp := none, dest := none }
      (fun _ => .resp 404 [] none)).requests.length = 3 ∧
    (downloadFileNamed "f" 3 { temp := none, dest := none }
      (fun _ => .resp 404 [] none)).sleeps = [1, 2] ∧
    (downloadFileNamed "f" 3 { temp := none, dest := none }
      (fun _ => .resp 404 [] none)).result = .ret (.error "HTTP 404") ∧
    ¬ ((downloadFileNamed "f" 3 { temp := none, dest := none }
      (fun _ => .resp 404 [] none)).sleeps = []) := by
  decide

/-- C5, amended: the engine has no permanent-failure classification — every
response status other than 200, 206 and 416 (in particular every 4xx)
raises `ClientResponseError`, which the loop catches exactly like a
transient failure: the job is attempted `retry_attempts` times with backoff
sleeps `2 ^ attempt`, and only the last attempt produces the terminal
`HTTP <status>` error dict. -/
theorem C5_theorem (f : String) (tp : Option Bytes) (k status : Nat)
    (chunks : List Bytes) (h416 : status ≠ 416) (h200 : status ≠ 200)
    (h206 : status ≠ 206) :
    (downloadFileNamed f (k + 1) { temp := tp, dest := none }
      (fun _ => .resp status chunks none)).result =
        .ret (.error ("HTTP " ++ toString status)) ∧
    (downloadFileNamed f (k + 1) { temp := tp, dest := none }
      (fun _ => .resp status chunks none)).requests.length = k + 1 ∧
    (downloadFileNamed f (k + 1) { temp := tp, dest := none }
      (fun _ => .resp status chunks none)).sleeps =
        (List.range k).map (fun j => 2 ^ j) := by
  have h := retryLoop_raised f ("HTTP " ++ toString status)
    { temp := tp, dest := none } (fun _ => .resp status chunks none)
    { rangeStart := tp.map List.length }
    (fun _ => attempt_badStatus_eq f { temp := tp, dest := none } status chunks
      none h416 h200 h206) k 0
  have hd : downloadFileNamed f (k + 1) { temp := tp, dest := none }
      (fun _ => .resp status chunks none) =
      retryLoop f (fun _ => .resp status chunks none) 0 (k + 1)
        { temp := tp, dest := none } := rfl
  rw [hd, h]
  exact ⟨rfl, by simp, by simp⟩

/-- Witness for C5: the amended statement at `retry_attempts = 3`,
status 404, no temp file. -/
theorem C5_witness :
    (downloadFileNamed "f" 3 { temp := none, dest := none }
      (fun _ => .resp 404 [] none)).result =
        .ret (.error ("HTTP " ++ toString 404)) ∧
    (downloadFileNamed "f" 3 { temp := none, dest := none }
      (fun _ => .resp 404 [] none)).requests.length = 2 + 1 ∧
    (downloadFileNamed "f" 3 { temp := none, dest := none }
      (fun _ => .resp 404 [] none)).sleeps =
        (List.range 2).map (fun j => 2 ^ j) :=
  C5_theorem "f" none 2 404 [] (by decide) (by decide) (by decide)

/-! ## Claims C6-C9: resume, restart and idempotence -/

/-- C6: whenever the temp file exists with content `t` at the start of an
attempt, the attempt's request carries a `Range` header whose starting
offset is exactly the temp file's length, whatever the network outcome —
bytes `[0, t.length)` are not re-requested. -/
theorem C6_theorem (f : String) (t : Bytes) (d : Option Bytes) (o : Outcome) :
    (attempt f { temp := some t, dest := d } o).request.rangeStart =
      some t.length := by
  cases o with
  | err m => rfl
  | resp status chunks itr =>
    simp only [attempt]
    split
    · rfl
    · split
      · cases itr <;> rfl
      · rfl

/-- C7, counterexample: the engine resumes by a bare range request computed
from the temp file length and appends whatever a 206 response carries.  With
a stale temp byte `[10]` and a server whose (changed) resource now consists
of the single byte `[20]` — so that the validator observed at resume time
necessarily differs from the one at probe time — the finished file is
`[10, 20]`: the stale partial data is silently appended to, not discarded,
and the transfer does not restart from offset 0 (which would yield `[20]`). -/
theorem C7_counterexample :
    (attempt "f" { temp := some [10], dest := none }
      (.resp 206 [[20]] none)).request.rangeStart = some 1 ∧
    (attempt "f" { temp := some [10], dest := none }
      (.resp 206 [[20]] none)).final.dest = some [10, 20] ∧
    ¬ ((attempt "f" { temp := some [10], dest := none }
      (.resp 206 [[20]] none)).final.dest = some [20]) := by
  decide

/-- C7, amended: the async engine captures no validator token and compares
none at resume: the resumed request consists of the `Range` offset alone
(the temp file's length), and on any 206 response the existing temp bytes
are kept and the body is appended — regardless of whether the remote
resource changed between probe and resume. -/
theorem C7_theorem (f : String) (t : Bytes) (d : Option Bytes) (chunks : List Bytes) :
    (attempt f { temp := some t, dest := d } (.resp 206 chunks none)).request =
      { rangeStart := some t.length } ∧
    (attempt f { temp := some t, dest := d } (.resp 206 chunks none)).final =
      { temp := none, dest := some (t ++ chunks.flatten) } := by
  refine ⟨?_, ?_⟩ <;> simp [attempt]

/-- C8: if the final destination file already exists, `download_file`
returns success with `bytes_downloaded = 0` immediately: no request is
issued, no sleep is performed, and the filesystem is untouched. -/
theorem C8_theorem (url : String) (n : Nat) (d : Bytes) (tp : Option Bytes)
    (out : Nat → Outcome) :
    downloadFile url n { temp := tp, dest := some d } out =
      { result := .ret (.success (generate_filename url) 0),
        final := { temp := tp, dest := some d },
        requests := [], sleeps := [], states := [] } := rfl

/-- C9: a 200 response during an attempt restarts from offset zero — the
temp file is opened in truncating `'wb'` mode (its first observable state
is empty) and the finished content is exactly the response body, the old
temp bytes being discarded; append mode, which keeps the old temp bytes, is
used exactly on a 206 response. -/
theorem C9_theorem (f : String) (t : Bytes) (d : Option Bytes) (chunks : List Bytes) :
    (attempt f { temp := some t, dest := d } (.resp 200 chunks none)).final =
      { temp := none, dest := some chunks.flatten } ∧
    (attempt f { temp := some t, dest := d } (.resp 200 chunks none)).states.head? =
      some { temp := some [], dest := d } ∧
    (attempt f { temp := some t, dest := d } (.resp 206 chunks none)).final =
      { temp := none, dest := some (t ++ chunks.flatten) } := by
  refine ⟨?_, ?_, ?_⟩ <;> simp [attempt]

/-! ## Claim C2: temp-file writes and the atomic rename -/

theorem lastOr_append (l1 l2 : List α) : ∀ d : α,
    lastOr d (l1 ++ l2) = lastOr (lastOr d l1) l2 := by
  induction l1 with
  | nil => intro d; rfl
  | cons a l ih => intro d; simp [lastOr, ih]

theorem chain_append_lastOr {R : α → α → Prop} (l1 : List α) : ∀ (x : α) (l2 : List α),
    List.Chain R x l1 → List.Chain R (lastOr x l1) l2 → List.Chain R x (l1 ++ l2) := by
  induction l1 with
  | nil => intro x l2 _ h2; exact h2
  | cons y l ih =>
    intro x l2 h1 h2
    cases h1 with
    | cons hxy hyl => exact List.Chain.cons hxy (ih y l2 hyl h2)

theorem chunkWrites_chain (d : Option Bytes) (cs : List Bytes) : ∀ base : Bytes,
    List.Chain destPublish { temp := some base, dest := d } (chunkWrites d base cs) := by
  induction cs with
  | nil => intro base; exact List.Chain.nil
  | cons c cs ih => intro base; exact List.Chain.cons (Or.inl rfl) (ih (base ++ c))

theorem chunkWrites_lastOr (d : Option Bytes) (cs : List Bytes) : ∀ base : Bytes,
    lastOr { temp := some base, dest := d } (chunkWrites d base cs) =
      { temp := some (base ++ cs.flatten), dest := d } := by
  induction cs with
  | nil => intro base; simp [chunkWrites, lastOr]
  | cons c cs ih =>
    intro base
    simp only [chunkWrites, lastOr, ih (base ++ c), List.flatten_cons,
      List.append_assoc]

/-- Each attempt's filesystem trace only writes to the temp file until the
single rename that publishes the complete temp content; the attempt's final
state is the last state of its trace. -/
theorem attempt_chain (f : String) (fs : Fs) (o : Outcome) :
    List.Chain destPublish fs (attempt f fs o).states ∧
    (attempt f fs o).final = lastOr fs (attempt f fs o).states := by
  cases o with
  | err m => exact ⟨List.Chain.nil, rfl⟩
  | resp status chunks itr =>
    by_cases h416 : status = 416
    · subst h416
      cases htmp : fs.temp with
      | none =>
        constructor
        · simp only [attempt, htmp]
          simp
        · simp only [attempt, htmp]
          simp [lastOr]
      | some t =>
        constructor
        · simp only [attempt, htmp, if_true]
          exact List.Chain.cons (Or.inr (by simp [htmp])) List.Chain.nil
        · simp only [attempt, htmp]
          simp [lastOr]
    · by_cases hok : status = 200 ∨ status = 206
      · cases itr with
        | none =>
          constructor
          · simp only [attempt, if_neg h416, if_pos hok]
            refine List.Chain.cons (Or.inl rfl) ?_
            refine chain_append_lastOr _ _ _ (chunkWrites_chain fs.dest chunks _) ?_
            rw [chunkWrites_lastOr]
            exact List.Chain.cons (Or.inr (by simp)) List.Chain.nil
          · simp only [attempt, if_neg h416, if_pos hok, lastOr, lastOr_append]
        | some m =>
          constructor
          · simp only [attempt, if_neg h416, if_pos hok]
            exact List.Chain.cons (Or.inl rfl) (chunkWrites_chain fs.dest chunks _)
          · simp only [attempt, if_neg h416, if_pos hok, lastOr]
            rw [chunkWrites_lastOr]
      · constructor
        · simp only [attempt, if_neg h416, if_neg hok]
          simp
        · simp only [attempt, if_neg h416, if_neg hok]
          simp [lastOr]

/-- The whole retry loop's filesystem trace has the same shape: writes touch
only the temp file, the destination changes only by renaming the complete
temp file, and the loop's final state is the last state of its trace. -/
theorem retryLoop_chain (f : String) (out : Nat → Outcome) : ∀ (r i : Nat) (fs : Fs),
    List.Chain destPublish fs (retryLoop f out i r fs).states ∧
    (retryLoop f out i r fs).final = lastOr fs (retryLoop f out i r fs).states := by
  intro r
  induction r with
  | zero => intro i fs; exact ⟨List.Chain.nil, rfl⟩
  | succ r ih =>
    intro i fs
    cases r with
    | zero =>
      cases h : (attempt f fs (out i)).result with
      | done r' =>
        simp only [retryLoop, h]
        exact attempt_chain f fs (out i)
      | raised m =>
        simp only [retryLoop, h]
        exact attempt_chain f fs (out i)
      | crashed =>
        simp only [retryLoop, h]
        exact attempt_chain f fs (out i)
    | succ r =>
      cases h : (attempt f fs (out i)).result with
      | done r' =>
        simp only [retryLoop, h]
        exact attempt_chain f fs (out i)
      | raised m =>
        simp only [retryLoop, h]
        refine ⟨?_, ?_⟩
        · refine chain_append_lastOr _ _ _ (attempt_chain f fs (out i)).1 ?_
          rw [← (attempt_chain f fs (out i)).2]
          exact (ih (i + 1) (attempt f fs (out i)).final).1
        · rw [lastOr_append, ← (attempt_chain f fs (out i)).2]
          exact (ih (i + 1) (attempt f fs (out i)).final).2
      | crashed =>
        simp only [retryLoop, h]
        exact attempt_chain f fs (out i)

/-- C2, counterexample: the legacy `core.py` downloader writes every chunk
directly to the final destination path.  Downloading a two-chunk body
`[1], [2]` makes the state after the first write observable at the final
path with partial content `[1]`, before the full content `[1, 2]` has been
written — a partially-written file is exposed at the final path, and no
temp file or rename is involved. -/
theorem C2_counterexample :
    (Core.downloadFile "f" { temp := none, dest := none }
      (.resp 200 [[1], [2]] none)).states[1]? =
      some { temp := none, dest := some [1] } ∧
    (Core.downloadFile "f" { temp := none, dest := none }
      (.resp 200 [[1], [2]] none)).final.dest = some [1, 2] ∧
    ¬ (([1] : Bytes) = [1, 2]) := by
  decide

/-- C2, amended: in the async engine (`downloader.py`) the stated property
holds: along the filesystem trace of any `download_file` call, every
transition either leaves the destination untouched (all writes go to the
adjacent temp file) or is the atomic rename publishing the complete temp
file as the destination — so a partially-written file is never observable
at the final path there.  The legacy `core.py` downloader violates the
claim (see the counterexample). -/
theorem C2_theorem (url : String) (n : Nat) (fs : Fs) (out : Nat → Outcome) :
    List.Chain destPublish fs (downloadFile url n fs out).states ∧
    (downloadFile url n fs out).final = lastOr fs (downloadFile url n fs out).states := by
  cases hd : fs.dest with
  | some d =>
    refine ⟨?_, ?_⟩ <;> simp [downloadFile, downloadFileNamed, hd, lastOr]
  | none =>
    have h := retryLoop_chain (generate_filename url) out n 0 fs
    constructor
    · simpa [downloadFile, downloadFileNamed, hd] using h.1
    · simpa [downloadFile, downloadFileNamed, hd] using h.2

/-! ## Claim C3: results emitted by the scheduler -/

theorem chunksOfFuel_flatten (m : Nat) : ∀ (fuel : Nat) (l : List α),
    l.length ≤ fuel → (chunksOfFuel m fuel l).flatten = l := by
  intro fuel
  induction fuel with
  | zero =>
    intro l hl
    cases l with
    | nil => rfl
    | cons u us => simp at hl
  | succ fuel ih =>
    intro l hl
    cases l with
    | nil => rfl
    | cons u us =>
      simp only [chunksOfFuel, List.flatten_cons, List.cons_append]
      rw [ih (us.drop m) (by simp at hl ⊢; omega), List.take_append_drop]

theorem chunksOf_flatten (m : Nat) (l : List α) : (chunksOf m l).flatten = l :=
  chunksOfFuel_flatten m l.length l (Nat.le_refl _)

/-- A consumer task finishes (breaks out of its loop) exactly when the
`None` sentinel is among the items delivered to it. -/
theorem consumerRun_finished (n : Nat) (env : String → Fs × (Nat → Outcome)) :
    ∀ r : List QItem, (consumerRun n env r).finished = r.contains none := by
  intro r
  induction r with
  | nil => rfl
  | cons x rest ih =>
    cases x with
    | none => simp [consumerRun]
    | some b => simp [consumerRun, ih]

/-- The producer enqueues exactly one sentinel. -/
theorem count_none_producerItems (batchSize : Nat) (urls : List String) :
    (producerItems batchSize urls).countP (fun x => x.isNone) = 1 := by
  simp only [producerItems, List.countP_append]
  have h : ((producerBatches batchSize urls).map some).countP
      (fun x => x.isNone) = 0 := by
    refine List.countP_eq_zero.2 (fun x hmem => ?_)
    rcases List.mem_map.1 hmem with ⟨b, _, hb⟩
    simp [← hb]
  rw [h]
  rfl

/-- At most as many consumers finish as there are sentinels delivered. -/
theorem finished_count_le (n : Nat) (env : String → Fs × (Nat → Outcome)) :
    ∀ recvs : List (List QItem),
      recvs.countP (fun r => (consumerRun n env r).finished) ≤
        recvs.flatten.countP (fun x => x.isNone) := by
  intro recvs
  induction recvs with
  | nil => simp
  | cons r rest ih =>
    simp only [List.countP_cons, List.flatten_cons, List.countP_append]
    have h1 : (if (consumerRun n env r).finished = true then 1 else 0) ≤
        r.countP (fun x => x.isNone) := by
      by_cases hf : (consumerRun n env r).finished = true
      · rw [if_pos hf]
        rw [consumerRun_finished] at hf
        have hm : (none : QItem) ∈ r := by simpa using hf
        exact List.countP_pos_iff.2 ⟨none, hm, rfl⟩
      · rw [if_neg hf]
        exact Nat.zero_le _
    omega

/-- With two or more consumer tasks and a legal delivery of the produced
items, not every consumer can finish: only one sentinel exists, so at most
one consumer breaks and the rest stay blocked in `queue.get()`. -/
theorem not_all_finished (n : Nat) (env : String → Fs × (Nat → Outcome))
    (batchSize : Nat) (urls : List String) (recvs : List (List QItem))
    (hperm : recvs.flatten.Perm (producerItems batchSize urls))
    (hlen : 2 ≤ recvs.length) :
    (recvs.map (fun r => (consumerRun n env r).finished)).all
      (fun b => b) = false := by
  rcases Bool.eq_false_or_eq_true
      ((recvs.map (fun r => (consumerRun n env r).finished)).all (fun b => b))
    with hT | hF
  · exfalso
    have hall2 : ∀ r ∈ recvs, (consumerRun n env r).finished = true := by
      intro r hr
      have h := List.all_eq_true.1 hT ((consumerRun n env r).finished)
        (List.mem_map.2 ⟨r, hr, rfl⟩)
      simpa using h
    have hcount : recvs.countP (fun r => (consumerRun n env r).finished) =
        recvs.length := List.countP_eq_length.2 (fun r hr => by simp [hall2 r hr])
    have hle := finished_count_le n env recvs
    have hpc := hperm.countP_eq (fun x => x.isNone)
    rw [hcount, hpc, count_none_producerItems] at hle
    omega
  · exact hF

/-- A consumer whose delivered items carry the sentinel only in last
position (as FIFO order guarantees) processes every batch delivered to it:
one result dict per URL. -/
theorem consumerRun_results_length (n : Nat) (env : String → Fs × (Nat → Outcome)) :
    ∀ r : List QItem, r.dropLast.contains (none : QItem) = false →
      (consumerRun n env r).results.length = ((r.filterMap id).flatten).length := by
  intro r
  induction r with
  | nil => intro _; rfl
  | cons x rest ih =>
    intro h
    cases x with
    | none =>
      cases rest with
      | nil => rfl
      | cons y ys => simp at h
    | some b =>
      cases rest with
      | nil => simp [consumerRun]
      | cons y ys =>
        have h' : (y :: ys).dropLast.contains (none : QItem) = false := by
          simpa using h
        simp [consumerRun, ih h']

/-- Under a sentinel-last delivery, the consumers' result dicts taken
together are one per delivered batch URL. -/
theorem downloadAllRun_length (n : Nat) (env : String → Fs × (Nat → Outcome)) :
    ∀ recvs : List (List QItem),
      (∀ r ∈ recvs, r.dropLast.contains (none : QItem) = false) →
        (downloadAllRun n env recvs).internalResults.length =
          ((recvs.flatten.filterMap id).flatten).length := by
  intro recvs
  induction recvs with
  | nil => intro _; rfl
  | cons r rest ih =>
    intro h
    have hr := consumerRun_results_length n env r (h r (List.mem_cons_self r rest))
    have hrest := ih (fun r2 hr2 => h r2 (List.mem_cons_of_mem r hr2))
    simp only [downloadAllRun, List.map_cons, List.flatten_cons, List.length_append,
      List.filterMap_append, List.flatten_append] at hr hrest ⊢
    omega

/-- The batches among the produced queue items are exactly the producer's
batches. -/
theorem filterMap_producerItems (batchSize : Nat) (urls : List String) :
    (producerItems batchSize urls).filterMap id = producerBatches batchSize urls := by
  simp [producerItems]

set_option maxRecDepth 4000 in
/-- C3, counterexample: at the default configuration (5 consumer tasks,
`batch_size = 100`, `retry_attempts = 3`) with a single job that succeeds,
take the legal FIFO delivery that hands the one batch to the first consumer
and the single `None` sentinel to the second.  The job's result dict exists
internally, but only one of the five consumers ever breaks — the gather at
line 153 never completes, `download_all` never returns, and the caller
receives zero terminal results for the job, not exactly one. -/
theorem C3_counterexample :
    ([[some ["u"]], [none], [], [], []] : List (List QItem)).flatten =
      producerItems 100 ["u"] ∧
    ([[some ["u"]], [none], [], [], []] : List (List QItem)).length = 5 ∧
    (downloadAllRun 3
      (fun _ => ({ temp := none, dest := none }, fun _ => .resp 200 [[1]] none))
      [[some ["u"]], [none], [], [], []]).internalResults.length = 1 ∧
    (downloadAllRun 3
      (fun _ => ({ temp := none, dest := none }, fun _ => .resp 200 [[1]] none))
      [[some ["u"]], [none], [], [], []]).returned = none := by
  decide

/-- C3, amended: each job yields exactly one internal result dict — under
any legal delivery of the queue items (each item to exactly one consumer,
sentinel delivered last, as FIFO order guarantees) every batch is drained
and every URL processed exactly once — but the caller never receives them:
the producer enqueues a single `None` sentinel for `max_concurrent`
consumer tasks, so at most one consumer can break; with `max_concurrent ≥ 2`
(the default is 5) the gather never completes and `download_all` never
returns, and in the only returning case it returns the empty list.  Either
way, no job's terminal result is ever emitted to the caller. -/
theorem C3_theorem (retryAttempts m : Nat) (urls : List String)
    (env : String → Fs × (Nat → Outcome)) (recvs : List (List QItem))
    (hperm : recvs.flatten.Perm (producerItems (m + 1) urls))
    (hlast : ∀ r ∈ recvs, r.dropLast.contains (none : QItem) = false) :
    (downloadAllRun retryAttempts env recvs).internalResults.length =
      urls.length ∧
    (2 ≤ recvs.length →
      (downloadAllRun retryAttempts env recvs).returned = none) ∧
    (∀ l, (downloadAllRun retryAttempts env recvs).returned = some l →
      l = []) := by
  refine ⟨?_, ?_, ?_⟩
  · rw [downloadAllRun_length retryAttempts env recvs hlast]
    have h1 := (hperm.filterMap id).flatten
    have h2 := h1.length_eq
    rw [h2, filterMap_producerItems]
    show ((chunksOf m urls).flatten).length = urls.length
    rw [chunksOf_flatten]
  · intro hlen
    have h := not_all_finished retryAttempts env (m + 1) urls recvs hperm hlen
    simp [downloadAllRun, h]
  · intro l hl
    by_cases hc : (recvs.map
        (fun r => (consumerRun retryAttempts env r).finished)).all (fun b => b) = true
    · simp only [downloadAllRun, hc, if_true, Option.some.injEq] at hl
      exact hl.symm
    · simp only [downloadAllRun, hc, if_false] at hl
      exact absurd hl (by simp)

set_option maxRecDepth 4000 in
/-- Witness for C3 at the default five-consumer configuration with one
succeeding job and the legal FIFO delivery of its batch and the
sentinel. -/
theorem C3_witness :
    (downloadAllRun 3
      (fun _ => ({ temp := none, dest := none }, fun _ => .resp 200 [[1]] none))
      [[some ["u"]], [none], [], [], []]).internalResults.length =
      (["u"] : List String).length ∧
    (downloadAllRun 3
      (fun _ => ({ temp := none, dest := none }, fun _ => .resp 200 [[1]] none))
      [[some ["u"]], [none], [], [], []]).returned = none := by
  have h := C3_theorem 3 99 ["u"]
    (fun _ => ({ temp := none, dest := none }, fun _ => .resp 200 [[1]] none))
    [[some ["u"]], [none], [], [], []] (by decide) (by decide)
  exact ⟨h.1, h.2.1 (by decide)⟩

/-! ## Claim C1: concurrency bounding -/

/-- C1, counterexample: the rate limiter itself does not bound the number of
simultaneously outstanding downloads.  With `max_concurrent = 5` the
limiter (`AsyncLimiter(5)`, a 5-per-60-seconds leaky bucket that is never
released on completion) admits five acquisitions at `t = 0` and a sixth at
`t = 12`; if every download takes 20 seconds, six downloads are outstanding
at `t = 12`, exceeding `max_concurrent = 5`. -/
theorem C1_counterexample :
    RateLimiterModel.admits 5 { level := 0, lastCheck := 0 }
      [0, 0, 0, 0, 0, 12] = true ∧
    RateLimiterModel.outstandingAt
      [(0, 20), (0, 20), (0, 20), (0, 20), (0, 20), (12, 20)] 12 = 6 ∧
    ¬ (RateLimiterModel.outstandingAt
      [(0, 20), (0, 20), (0, 20), (0, 20), (0, 20), (12, 20)] 12 ≤ 5) := by
  decide

theorem connStates_le (limit : Nat) (evs : List ConnectorModel.ConnEvent) :
    ∀ held : Nat, held ≤ limit →
      (ConnectorModel.connStates limit held evs).all
        (fun s => decide (s ≤ limit)) = true := by
  induction evs with
  | nil =>
    intro held h
    simp [ConnectorModel.connStates, h]
  | cons e es ih =>
    intro held h
    simp only [ConnectorModel.connStates, List.all_cons, Bool.and_eq_true,
      decide_eq_true_eq]
    refine ⟨h, ih _ ?_⟩
    cases e with
    | acq =>
      simp only [ConnectorModel.connStep]
      split <;> omega
    | rel =>
      simp only [ConnectorModel.connStep]
      omega

/-- C1, amended: what bounds the number of simultaneously outstanding
network operations to `max_concurrent` is the TCP connection pool
(`TCPConnector(limit=self.max_concurrent)`, line 39), i.e. pool sizing —
not the rate limiter: along any trace of connection acquisitions and
releases starting from an idle pool, the number of held connections never
exceeds the pool limit. -/
theorem C1_theorem (limit : Nat) (evs : List ConnectorModel.ConnEvent) :
    (ConnectorModel.connStates limit 0 evs).all
      (fun s => decide (s ≤ limit)) = true :=
  connStates_le limit evs 0 (Nat.zero_le limit)

/-! ## Claim C10: `generate_filename` -/

theorem natLE_length (k : Nat) : ∀ n : Nat, (natLE k n).length = k := by
  induction k with
  | zero => intro n; rfl
  | succ k ih => intro n; simp [natLE, ih]

theorem md5Digest_length (msg : Bytes) : (md5Digest msg).length = 16 := by
  simp [md5Digest, natLE_length]

theorem flatMap_byteHex_length (l : Bytes) : (l.flatMap byteHex).length = 2 * l.length := by
  induction l with
  | nil => rfl
  | cons b l ih =>
    simp [byteHex, ih]
    omega

theorem md5hex_length (s : String) : (md5hex s).length = 32 := by
  have h : (md5hex s).length = ((md5Digest (utf8Bytes s)).flatMap byteHex).length := rfl
  rw [h, flatMap_byteHex_length, md5Digest_length]

set_option maxRecDepth 4000 in
/-- Sanity check of the MD5 embedding against a known digest
(`hashlib.md5(b"abc").hexdigest()`). -/
theorem md5hex_abc : md5hex "abc" = "900150983cd24fb0d6963f7d28e17f72" := by
  decide

set_option maxRecDepth 4000 in
/-- Sanity check of the whole filename pipeline: hash, underscore,
percent-decoded basename (`%20` → space). -/
theorem generate_filename_example :
    generate_filename "https://example.com/files/report%20final.pdf?v=3" =
      "1e65879e991d90bc42ec73622b14d818_report final.pdf" := by
  decide

/-- C10: `generate_filename` is a pure function of the URL alone — two calls
with the same URL agree — and returns the 32-character hex MD5 digest of
the URL, an underscore, and the percent-decoded basename of the URL's path,
with the literal `unnamed_file` substituted when that basename is empty, so
the filename component after the digest is never empty. -/
theorem C10_theorem (url : String) :
    (∃ name : List Char,
      generate_filename url = md5hex url ++ "_" ++ String.mk name ∧
      name = (if (unquote (pathBasename (urlparsePath url))).isEmpty then
        "unnamed_file".toList else unquote (pathBasename (urlparsePath url))) ∧
      name ≠ []) ∧
    (md5hex url).length = 32 ∧
    (∀ url2 : String, url2 = url →
      generate_filename url2 = generate_filename url) := by
  refine ⟨⟨_, rfl, rfl, ?_⟩, md5hex_length url, fun url2 h => by rw [h]⟩
  by_cases hE : (unquote (pathBasename (urlparsePath url))).isEmpty = true
  · simp [hE]
  · simp only [hE, if_false]
    simpa using hE

/-- Witness for C10 at a concrete URL. -/
theorem C10_witness :
    (∃ name : List Char,
      generate_filename "http://example.com/a/b.pdf" =
        md5hex "http://example.com/a/b.pdf" ++ "_" ++ String.mk name ∧
      name = (if (unquote (pathBasename
          (urlparsePath "http://example.com/a/b.pdf"))).isEmpty then
        "unnamed_file".toList else
        unquote (pathBasename (urlparsePath "http://example.com/a/b.pdf"))) ∧
      name ≠ []) ∧
    (md5hex "http://example.com/a/b.pdf").length = 32 ∧
    generate_filename "http://example.com/a/b.pdf" =
      generate_filename "http://example.com/a/b.pdf" := by
  have h := C10_theorem "http://example.com/a/b.pdf"
  exact ⟨h.1, h.2.1, h.2.2 _ rfl⟩

end Pypdl
